import Mathlib

/-!
Shallow embedding of `hedwig/validator.py` (the `MessageValidator` and
`FormatValidator` classes) together with theorems about the behaviour of
`check_human_uuid`, `check_schema`, `validate`, and the format-checker
registry.

Modelling notes.

* JSON/YAML values decoded from schema documents and message payloads are
  modelled by the inductive `JVal` (null, booleans, numbers, strings,
  arrays, objects).  Objects are association lists; Python `dict`s never
  hold duplicate keys, but none of the definitions below depend on that.
* The external `jsonschema` library (class `Draft4Validator`, the
  resolver, `iter_errors`, the draft-4 meta-schema check performed by
  `super().check_schema`) is an external collaborator: it is not part of
  this repository.  Its interface is abstracted: `resolve` is a function
  `String → Option JVal` where `none` models `RefResolutionError`, and
  `iter_errors` is a function producing the (materialised) list of
  structural violations.  The draft-4 meta-schema check raised by
  `super().check_schema` is treated as passing on the documents of the
  model's domain; `checkSchemaCustom` models the Hedwig-specific error
  collection that follows it.
* `settings.HEDWIG_MESSAGE_ROUTING` (external configuration) is modelled
  by its list of keys: `(message_type, major_version)` pairs.  Dictionary
  keys are pairwise distinct, so theorems about it carry a `Nodup`
  hypothesis.
* Python regular-expression matching via `re.match(pat, s)` with a
  pattern of the shape `^P$` succeeds iff `s` is exactly `P`, or `P`
  followed by a single trailing newline (the `$` anchor also matches just
  before a final newline).  Both `_human_uuid_re` and
  `distutils.version.StrictVersion.version_re` are embedded with this
  semantics.
-/

set_option maxRecDepth 4096

/-- JSON-like decoded values (payloads, sub-schemas, version maps). -/
inductive JVal where
  | null
  | bool (b : Bool)
  | num (n : Int)
  | str (s : String)
  | arr (elems : List JVal)
  | obj (fields : List (String × JVal))

/-- Python `str.startswith`: prefix test on the character sequences. -/
def startswith (s pre : String) : Bool :=
  pre.data.isPrefixOf s.data

/-- Lowercase hexadecimal digit, the character class `[0-9a-f]` of
`MessageValidator._human_uuid_re` (ASCII codes 48-57 and 97-102). -/
def isLowerHex (c : Char) : Bool :=
  (decide (48 ≤ c.toNat) && decide (c.toNat ≤ 57))
    || (decide (97 ≤ c.toNat) && decide (c.toNat ≤ 102))

/-- Consume exactly `n` lowercase-hex characters (`[0-9a-f]{n}`),
returning the rest of the input. -/
def hexChunk : Nat → List Char → Option (List Char)
  | 0, cs => some cs
  | _ + 1, [] => none
  | n + 1, c :: cs => if isLowerHex c then hexChunk n cs else none

/-- Consume a single hyphen. -/
def hyphen (cs : List Char) : Option (List Char) :=
  match cs with
  | c :: r => if c = '-' then some r else none
  | [] => none

/-- Remainder of the input after the body of `_human_uuid_re`
(`[0-9a-f]{8}-[0-9a-f]{4}-[0-9a-f]{4}-[0-9a-f]{4}-[0-9a-f]{12}`)
has been consumed, if it matches. -/
def uuidRem (cs : List Char) : Option (List Char) :=
  Option.bind (hexChunk 8 cs) (fun r1 =>
  Option.bind (hyphen r1) (fun r2 =>
  Option.bind (hexChunk 4 r2) (fun r3 =>
  Option.bind (hyphen r3) (fun r4 =>
  Option.bind (hexChunk 4 r4) (fun r5 =>
  Option.bind (hyphen r5) (fun r6 =>
  Option.bind (hexChunk 4 r6) (fun r7 =>
  Option.bind (hyphen r7) (fun r8 =>
  hexChunk 12 r8))))))))

/-- Result of `bool(MessageValidator._human_uuid_re.match(s))`: the body
must consume the whole string, or the whole string up to one final
newline (Python `$` semantics in `re.match`). -/
def humanUuidMatch (s : String) : Bool :=
  decide (uuidRem s.data = some []) || decide (uuidRem s.data = some ['\n'])

/-- Embedding of `MessageValidator.check_human_uuid`: non-strings pass
trivially; strings are matched against `_human_uuid_re`. -/
def MessageValidator.check_human_uuid (v : JVal) : Bool :=
  match v with
  | .str s => humanUuidMatch s
  | _ => true

/-- Model of the `jsonschema.FormatChecker` registry state: a table from
format name to predicate (`FormatChecker.checkers`). -/
abbrev CheckerTable := List (String × (JVal → Bool))

/-- Model of `FormatChecker.conforms(value, format)` (external
`jsonschema` collaborator, specified in the design document): an
unregistered format name is not enforced and the check passes; a
registered name applies its predicate. -/
def FormatChecker.conforms (checkers : CheckerTable) (format : String) (v : JVal) : Bool :=
  match checkers.lookup format with
  | none => true
  | some f => f v

/-- The checkers contributed by this module:
`@FormatChecker.cls_checks('human-uuid')` registers
`check_human_uuid` under the name `human-uuid`. -/
def hedwigCheckers : CheckerTable :=
  [("human-uuid", MessageValidator.check_human_uuid)]

/-- Embedding of `distutils.version.StrictVersion` digit parsing:
`int` applied to a nonempty ASCII-digit string. -/
def digitsToNat (ds : List Char) : Nat :=
  ds.foldl (fun n c => n * 10 + (c.toNat - 48)) 0

/-- Python `$`-anchor adjustment for a full-string `re.match`: a single
final newline is allowed after the pattern body. -/
def stripDollarNewline (cs : List Char) : List Char :=
  match cs.getLast? with
  | some c => if c = '\n' then cs.dropLast else cs
  | none => cs

/-- Tail of `StrictVersion.version_re` after major/minor/patch:
the optional prerelease group `([ab](\d+))?` followed by `$`. -/
def parseTail (major minor patch : Nat) (rest : List Char) : Option (Nat × Nat × Nat) :=
  match rest with
  | [] => some (major, minor, patch)
  | c :: r =>
    if c = 'a' ∨ c = 'b' then
      let q := r.span Char.isDigit
      if q.1 ≠ [] ∧ q.2 = [] then some (major, minor, patch) else none
    else none

/-- Embedding of `StrictVersion(s)`: `version_re` is
`^(\d+) \. (\d+) (\. (\d+))? ([ab](\d+))?$` (VERBOSE, ASCII).  Returns
`some (major, minor, patch)` on success (`version` tuple; a missing
patch component is `0`), `none` when `ValueError` is raised. -/
def parseStrictVersion (s : String) : Option (Nat × Nat × Nat) :=
  let cs := stripDollarNewline s.data
  let p1 := cs.span Char.isDigit
  if p1.1 = [] then none
  else
    match p1.2 with
    | '.' :: r1 =>
      let p2 := r1.span Char.isDigit
      if p2.1 = [] then none
      else
        match p2.2 with
        | '.' :: r2 =>
          let p3 := r2.span Char.isDigit
          if p3.1 = [] then none
          else parseTail (digitsToNat p1.1) (digitsToNat p2.1) (digitsToNat p3.1) p3.2
        | r2 => parseTail (digitsToNat p1.1) (digitsToNat p2.1) 0 r2
    | _ => none

/-- Key of `settings.HEDWIG_MESSAGE_ROUTING`: a
`(message type, major version)` pair. -/
abbrev RoutingKey := String × Nat

/-- State of the `msg_types_found` dictionary in `check_schema`. -/
abbrev Flags := List (RoutingKey × Bool)

/-- Python `if key in msg_types_found: msg_types_found[key] = True`
(the assignment only happens for keys already present). -/
def setFlag (fl : Flags) (k : RoutingKey) : Flags :=
  fl.map (fun pb => if pb.1 = k then (pb.1, true) else pb)

/-- Python `{k: False for k in settings.HEDWIG_MESSAGE_ROUTING}` for the
(distinct) key list of the routing configuration. -/
def initFlags (routing : List RoutingKey) : Flags :=
  routing.map (fun k => (k, false))

/-- Error records collected by `check_schema`, tagged with the data of
the corresponding f-string messages. -/
inductive SchemaErr where
  | missingSchemas
  | invalidDefinition (msgType : String)
  | invalidVersion (version msgType : String)
  | schemaNotFound (msgType : String) (major : Nat)
deriving DecidableEq

/-- Embedding of the loaded schema document: the `id` entry (used by
`schema_root`) and the value under the `schemas` key.  `none` models a
missing key or `None`; `some fields` models a dict.  (A truthy non-dict
value under `schemas` would crash `check_schema` with an `AttributeError`
and is outside the model's domain.) -/
structure SchemaDoc where
  id : String
  schemas : Option (List (String × JVal))

/-- Inner loop of `check_schema` over `versions.items()`: parse each
version string, flag the `(msg_type, major)` pair if it is tracked, and
collect an `invalid version` error on parse failure. -/
def verLoop (t : String) : List (String × JVal) → Flags → List SchemaErr × Flags
  | [], fl => ([], fl)
  | (ver, _defn) :: rest, fl =>
    match parseStrictVersion ver with
    | some tup => verLoop t rest (setFlag fl (t, tup.1))
    | none =>
      let r := verLoop t rest fl
      (SchemaErr.invalidVersion ver t :: r.1, r.2)

/-- Outer loop of `check_schema` over `schema['schemas'].items()`: a
value that is not a nonempty dict yields an `invalid definition` error,
otherwise the version loop runs. -/
def typeLoop : List (String × JVal) → Flags → List SchemaErr × Flags
  | [], fl => ([], fl)
  | (t, JVal.obj (v :: vs)) :: rest, fl =>
    let r1 := verLoop t (v :: vs) fl
    let r2 := typeLoop rest r1.2
    (r1.1 ++ r2.1, r2.2)
  | (t, _) :: rest, fl =>
    let r := typeLoop rest fl
    (SchemaErr.invalidDefinition t :: r.1, r.2)

/-- Hedwig-specific part of `MessageValidator.check_schema` (everything
after the `super().check_schema(schema)` call, which is the external
jsonschema draft-4 meta-schema check): the list of collected errors, in
collection order. -/
def checkSchemaCustom (routing : List RoutingKey) (doc : SchemaDoc) : List SchemaErr :=
  let fl0 := initFlags routing
  let r :=
    match doc.schemas with
    | some (e :: l) => typeLoop (e :: l) fl0
    | _ => ([SchemaErr.missingSchemas], fl0)
  r.1 ++ r.2.filterMap (fun pb => if pb.2 then none else some (SchemaErr.schemaNotFound pb.1.1 pb.1.2))

/-- Embedding of `MessageValidator.check_schema`: raise `SchemaError`
with the full collected error list iff any error was collected. -/
def MessageValidator.check_schema (routing : List RoutingKey) (doc : SchemaDoc) :
    Except (List SchemaErr) Unit :=
  let errors := checkSchemaCustom routing doc
  if errors.isEmpty then Except.ok () else Except.error errors

/-- Runtime message under validation (`message.schema` is the declared
schema reference string, `message.data` the payload). -/
structure Message where
  schema : String
  data : JVal

/-- Outcome of a `validate` call.  `rootMismatch` and `unresolvedRef`
model the two bare `raise ValidationError` statements (no per-field
records); `invalid errors` models `raise ValidationError(errors)`. -/
inductive ValidateOutcome (E : Type) where
  | ok
  | rootMismatch
  | unresolvedRef
  | invalid (errors : List E)
deriving DecidableEq

/-- Per-field violation records carried by the raised error (a bare
`ValidationError` carries none). -/
def ValidateOutcome.records {E : Type} : ValidateOutcome E → List E
  | .invalid es => es
  | _ => []

/-- Embedding of the `schema_root` property: `self.schema['id']`. -/
def MessageValidator.schema_root (doc : SchemaDoc) : String :=
  doc.id

/-- Embedding of `MessageValidator.validate`.  `resolve` models
`self.resolver.resolve` of the external jsonschema library (`none`
models `RefResolutionError`, `some schema` the resolved target);
`iter_errors` models `list(self.iter_errors(data, schema))`. -/
def MessageValidator.validate {E : Type} (doc : SchemaDoc)
    (resolve : String → Option JVal) (iter_errors : JVal → JVal → List E)
    (message : Message) : ValidateOutcome E :=
  if startswith message.schema (MessageValidator.schema_root doc) = false then
    ValidateOutcome.rootMismatch
  else
    match resolve message.schema with
    | none => ValidateOutcome.unresolvedRef
    | some schema =>
      let errors := iter_errors message.data schema
      if errors.isEmpty then ValidateOutcome.ok else ValidateOutcome.invalid errors

/-- Embedding of `FormatValidator.validate`: materialise
`list(self.iter_errors(data))` against the bundled meta-schema and raise
iff it is nonempty. -/
def FormatValidator.validate {E : Type} (iter_errors : JVal → List E)
    (data : JVal) : ValidateOutcome E :=
  let errors := iter_errors data
  if errors.isEmpty then ValidateOutcome.ok else ValidateOutcome.invalid errors

/-! Specification-side definitions used to state the claims. -/

/-- Canonical lowercase hyphenated `8-4-4-4-12` hexadecimal UUID shape
of a character sequence (the claim-side reading of the spec). -/
def IsUuidChars (cs : List Char) : Prop :=
  ∃ g1 g2 g3 g4 g5 : List Char,
    cs = g1 ++ '-' :: (g2 ++ '-' :: (g3 ++ '-' :: (g4 ++ '-' :: g5)))
    ∧ g1.length = 8 ∧ g2.length = 4 ∧ g3.length = 4 ∧ g4.length = 4 ∧ g5.length = 12
    ∧ (∀ c ∈ g1, isLowerHex c = true) ∧ (∀ c ∈ g2, isLowerHex c = true)
    ∧ (∀ c ∈ g3, isLowerHex c = true) ∧ (∀ c ∈ g4, isLowerHex c = true)
    ∧ (∀ c ∈ g5, isLowerHex c = true)

/-- Version-map value that fails the shape check
`not isinstance(versions, dict) or not versions`. -/
def badVal : JVal → Bool
  | .obj (_ :: _) => false
  | _ => true

/-- Truthiness of `schema.get('schemas')` on the model's domain. -/
def schemasFalsy (doc : SchemaDoc) : Bool :=
  match doc.schemas with
  | some (_ :: _) => false
  | _ => true

/-- Version-parse errors of a version map, in iteration order. -/
def verErrors (t : String) (vs : List (String × JVal)) : List SchemaErr :=
  vs.filterMap (fun q =>
    match parseStrictVersion q.1 with
    | some _ => none
    | none => some (SchemaErr.invalidVersion q.1 t))

/-- Routing keys covered by the entries of one version map. -/
def verCovered (t : String) (vs : List (String × JVal)) : List RoutingKey :=
  vs.filterMap (fun q => (parseStrictVersion q.1).map (fun tup => (t, tup.1)))

/-- Errors contributed by one `(msg_type, versions)` document entry. -/
def entryErrors (e : String × JVal) : List SchemaErr :=
  match e.2 with
  | .obj (v :: vs) => verErrors e.1 (v :: vs)
  | _ => [SchemaErr.invalidDefinition e.1]

/-- Routing keys covered by one document entry. -/
def entryCovered (e : String × JVal) : List RoutingKey :=
  match e.2 with
  | .obj (v :: vs) => verCovered e.1 (v :: vs)
  | _ => []

/-- The `(msg_type, version string)` pairs iterated by `check_schema`. -/
def entryEntries (e : String × JVal) : List (String × String) :=
  match e.2 with
  | .obj (v :: vs) => (v :: vs).map (fun q => (e.1, q.1))
  | _ => []

/-- Errors collected during the document pass of `check_schema`
(shape errors and malformed-version errors, in document order). -/
def docErrors (doc : SchemaDoc) : List SchemaErr :=
  match doc.schemas with
  | some (e :: l) => (e :: l).flatMap entryErrors
  | _ => [SchemaErr.missingSchemas]

/-- All routing keys covered by the document. -/
def docCovered (doc : SchemaDoc) : List RoutingKey :=
  match doc.schemas with
  | some (e :: l) => (e :: l).flatMap entryCovered
  | _ => []

/-- All `(msg_type, version string)` pairs iterated by `check_schema`. -/
def docEntries (doc : SchemaDoc) : List (String × String) :=
  match doc.schemas with
  | some l => l.flatMap entryEntries
  | none => []

/-- Coverage errors emitted after the document pass, in routing order. -/
def missingList (routing : List RoutingKey) (doc : SchemaDoc) : List SchemaErr :=
  routing.filterMap (fun p =>
    if p ∈ docCovered doc then none else some (SchemaErr.schemaNotFound p.1 p.2))

/-- Number of structural-shape errors of the document (missing or empty
`schemas` key; version-map values that are not nonempty dicts). -/
def shapeErrCount (doc : SchemaDoc) : Nat :=
  match doc.schemas with
  | some (e :: l) => (e :: l).countP (fun q => badVal q.2)
  | _ => 1

/-- Number of iterated `(msg_type, version)` entries whose version
string fails to parse as a strict semantic version. -/
def malformedCount (doc : SchemaDoc) : Nat :=
  (docEntries doc).countP (fun p => (parseStrictVersion p.2).isNone)

/-! Helper lemmas about the uuid regular-expression embedding. -/

theorem hexChunk_len_append (g r : List Char) (hhex : ∀ c ∈ g, isLowerHex c = true) :
    hexChunk g.length (g ++ r) = some r := by
  induction g with
  | nil => simp [hexChunk]
  | cons c g ih =>
    have hc : isLowerHex c = true := hhex c (by simp)
    simpa [hexChunk, hc] using ih (fun x hx => hhex x (by simp [hx]))

theorem hexChunk_eq_some (n : Nat) : ∀ (cs r : List Char),
    hexChunk n cs = some r ↔
      ∃ g, cs = g ++ r ∧ g.length = n ∧ ∀ c ∈ g, isLowerHex c = true := by
  induction n with
  | zero =>
    intro cs r
    constructor
    · intro h
      refine ⟨[], ?_, rfl, by simp⟩
      simpa [hexChunk] using h
    · rintro ⟨g, hcs, hlen, -⟩
      have hg : g = [] := List.length_eq_zero.mp hlen
      subst hg
      have : cs = r := by simpa using hcs
      simp [hexChunk, this]
  | succ n ih =>
    intro cs r
    cases cs with
    | nil =>
      constructor
      · intro h
        simp [hexChunk] at h
      · rintro ⟨g, hcs, hlen, -⟩
        have := congrArg List.length hcs
        simp [hlen] at this
        exact absurd this (by omega)
    | cons c cs =>
      by_cases hc : isLowerHex c = true
      · rw [show hexChunk (n + 1) (c :: cs) = hexChunk n cs from by simp [hexChunk, hc]]
        rw [ih cs r]
        constructor
        · rintro ⟨g, hcs, hlen, hhex⟩
          refine ⟨c :: g, by simp [hcs], by simp [hlen], ?_⟩
          intro x hx
          rcases List.mem_cons.mp hx with h | h
          · subst h; exact hc
          · exact hhex x h
        · rintro ⟨g, hcs, hlen, hhex⟩
          cases g with
          | nil => simp at hlen
          | cons g0 gs =>
            rw [List.cons_append, List.cons.injEq] at hcs
            refine ⟨gs, hcs.2, by simpa using hlen, ?_⟩
            intro x hx
            exact hhex x (List.mem_cons_of_mem _ hx)
      · rw [show hexChunk (n + 1) (c :: cs) = none from by simp [hexChunk, hc]]
        constructor
        · intro h; simp at h
        · rintro ⟨g, hcs, hlen, hhex⟩
          cases g with
          | nil => simp at hlen
          | cons g0 gs =>
            rw [List.cons_append, List.cons.injEq] at hcs
            exact absurd (hcs.1 ▸ hhex g0 (by simp)) hc

theorem hyphen_eq_some (cs r : List Char) : hyphen cs = some r ↔ cs = '-' :: r := by
  cases cs with
  | nil => simp [hyphen]
  | cons c cs =>
    by_cases h : c = '-'
    · subst h; simp [hyphen]
    · simp [hyphen, h]

theorem hyphen_cons (r : List Char) : hyphen ('-' :: r) = some r := by
  simp [hyphen]

theorem uuidRem_eq_some (cs r : List Char) :
    uuidRem cs = some r ↔
      ∃ g1 g2 g3 g4 g5 : List Char,
        cs = g1 ++ '-' :: (g2 ++ '-' :: (g3 ++ '-' :: (g4 ++ '-' :: (g5 ++ r))))
        ∧ g1.length = 8 ∧ g2.length = 4 ∧ g3.length = 4 ∧ g4.length = 4 ∧ g5.length = 12
        ∧ (∀ c ∈ g1, isLowerHex c = true) ∧ (∀ c ∈ g2, isLowerHex c = true)
        ∧ (∀ c ∈ g3, isLowerHex c = true) ∧ (∀ c ∈ g4, isLowerHex c = true)
        ∧ (∀ c ∈ g5, isLowerHex c = true) := by
  unfold uuidRem
  constructor
  · intro h
    rcases Option.bind_eq_some.mp h with ⟨r1, h1, h⟩
    rcases Option.bind_eq_some.mp h with ⟨r2, h2, h⟩
    rcases Option.bind_eq_some.mp h with ⟨r3, h3, h⟩
    rcases Option.bind_eq_some.mp h with ⟨r4, h4, h⟩
    rcases Option.bind_eq_some.mp h with ⟨r5, h5, h⟩
    rcases Option.bind_eq_some.mp h with ⟨r6, h6, h⟩
    rcases Option.bind_eq_some.mp h with ⟨r7, h7, h⟩
    rcases Option.bind_eq_some.mp h with ⟨r8, h8, h9⟩
    rcases (hexChunk_eq_some 8 cs r1).mp h1 with ⟨g1, e1, l1, x1⟩
    have e2 := (hyphen_eq_some r1 r2).mp h2
    rcases (hexChunk_eq_some 4 r2 r3).mp h3 with ⟨g2, e3, l2, x2⟩
    have e4 := (hyphen_eq_some r3 r4).mp h4
    rcases (hexChunk_eq_some 4 r4 r5).mp h5 with ⟨g3, e5, l3, x3⟩
    have e6 := (hyphen_eq_some r5 r6).mp h6
    rcases (hexChunk_eq_some 4 r6 r7).mp h7 with ⟨g4, e7, l4, x4⟩
    have e8 := (hyphen_eq_some r7 r8).mp h8
    rcases (hexChunk_eq_some 12 r8 r).mp h9 with ⟨g5, e9, l5, x5⟩
    refine ⟨g1, g2, g3, g4, g5, ?_, l1, l2, l3, l4, l5, x1, x2, x3, x4, x5⟩
    rw [e1, e2, e3, e4, e5, e6, e7, e8, e9]
  · rintro ⟨g1, g2, g3, g4, g5, hcs, l1, l2, l3, l4, l5, x1, x2, x3, x4, x5⟩
    subst hcs
    have s1 : hexChunk 8 (g1 ++ '-' :: (g2 ++ '-' :: (g3 ++ '-' :: (g4 ++ '-' :: (g5 ++ r)))))
        = some ('-' :: (g2 ++ '-' :: (g3 ++ '-' :: (g4 ++ '-' :: (g5 ++ r))))) := by
      rw [← l1]; exact hexChunk_len_append g1 _ x1
    have s2 : hexChunk 4 (g2 ++ '-' :: (g3 ++ '-' :: (g4 ++ '-' :: (g5 ++ r))))
        = some ('-' :: (g3 ++ '-' :: (g4 ++ '-' :: (g5 ++ r)))) := by
      rw [← l2]; exact hexChunk_len_append g2 _ x2
    have s3 : hexChunk 4 (g3 ++ '-' :: (g4 ++ '-' :: (g5 ++ r)))
        = some ('-' :: (g4 ++ '-' :: (g5 ++ r))) := by
      rw [← l3]; exact hexChunk_len_append g3 _ x3
    have s4 : hexChunk 4 (g4 ++ '-' :: (g5 ++ r)) = some ('-' :: (g5 ++ r)) := by
      rw [← l4]; exact hexChunk_len_append g4 _ x4
    have s5 : hexChunk 12 (g5 ++ r) = some r := by
      rw [← l5]; exact hexChunk_len_append g5 _ x5
    simp only [s1, s2, s3, s4, s5, hyphen_cons, Option.some_bind]

theorem isUuidChars_iff_uuidRem (cs : List Char) :
    IsUuidChars cs ↔ uuidRem cs = some [] := by
  unfold IsUuidChars
  rw [uuidRem_eq_some]
  simp only [List.append_nil]

theorem isUuidCharsNl_iff_uuidRem (cs : List Char) :
    (∃ cs2, cs = cs2 ++ ['\n'] ∧ IsUuidChars cs2) ↔ uuidRem cs = some ['\n'] := by
  rw [uuidRem_eq_some]
  constructor
  · rintro ⟨cs2, rfl, g1, g2, g3, g4, g5, rfl, l1, l2, l3, l4, l5, x1, x2, x3, x4, x5⟩
    exact ⟨g1, g2, g3, g4, g5, by simp [List.append_assoc], l1, l2, l3, l4, l5,
      x1, x2, x3, x4, x5⟩
  · rintro ⟨g1, g2, g3, g4, g5, rfl, l1, l2, l3, l4, l5, x1, x2, x3, x4, x5⟩
    refine ⟨g1 ++ '-' :: (g2 ++ '-' :: (g3 ++ '-' :: (g4 ++ '-' :: g5))),
      by simp [List.append_assoc], g1, g2, g3, g4, g5, rfl, l1, l2, l3, l4, l5,
      x1, x2, x3, x4, x5⟩

/-! Helper lemmas about the check_schema embedding. -/

theorem filterMapSome {α β : Type} (g : α → β) (l : List α) :
    l.filterMap (fun a => some (g a)) = l.map g := by
  induction l with
  | nil => rfl
  | cons a l ih => simp [List.filterMap_cons, ih]

theorem or_decide_mem_append {α : Type} [DecidableEq α] (a : α) (b : Bool) (A B : List α) :
    ((b || decide (a ∈ A)) || decide (a ∈ B)) = (b || decide (a ∈ A ++ B)) := by
  by_cases h1 : a ∈ A <;> by_cases h2 : a ∈ B <;> simp [h1, h2, Bool.or_assoc]

theorem verLoop_eq (t : String) (vs : List (String × JVal)) (fl : Flags) :
    verLoop t vs fl =
      (verErrors t vs,
       fl.map (fun pb => (pb.1, pb.2 || decide (pb.1 ∈ verCovered t vs)))) := by
  induction vs generalizing fl with
  | nil => simp [verLoop, verErrors, verCovered]
  | cons q rest ih =>
    obtain ⟨ver, d⟩ := q
    cases hp : parseStrictVersion ver with
    | none =>
      simp [verLoop, hp, ih, verErrors, verCovered]
    | some tup =>
      rw [show verLoop t ((ver, d) :: rest) fl = verLoop t rest (setFlag fl (t, tup.1)) from by
        simp [verLoop, hp]]
      rw [ih]
      have he : verErrors t ((ver, d) :: rest) = verErrors t rest := by
        simp [verErrors, List.filterMap_cons, hp]
      have hc : verCovered t ((ver, d) :: rest) = (t, tup.1) :: verCovered t rest := by
        simp [verCovered, List.filterMap_cons, hp]
      rw [he, hc, setFlag, List.map_map]
      refine congrArg (Prod.mk _) ?_
      apply List.map_congr_left
      intro pb _
      by_cases hpb : pb.1 = (t, tup.1) <;> simp [hpb, List.mem_cons]

theorem typeLoop_eq (l : List (String × JVal)) (fl : Flags) :
    typeLoop l fl =
      (l.flatMap entryErrors,
       fl.map (fun pb => (pb.1, pb.2 || decide (pb.1 ∈ l.flatMap entryCovered)))) := by
  induction l generalizing fl with
  | nil => simp [typeLoop]
  | cons e rest ih =>
    obtain ⟨t, vsv⟩ := e
    cases vsv
    case obj fields =>
      cases fields with
      | nil => simp [typeLoop, ih, entryErrors, entryCovered]
      | cons v vs =>
        have hstep : typeLoop ((t, JVal.obj (v :: vs)) :: rest) fl
            = ((verLoop t (v :: vs) fl).1 ++ (typeLoop rest ((verLoop t (v :: vs) fl).2)).1,
               (typeLoop rest ((verLoop t (v :: vs) fl).2)).2) := rfl
        rw [hstep, verLoop_eq, ih]
        simp only [List.flatMap_cons]
        refine Prod.ext ?_ ?_
        · simp [entryErrors]
        · simp only [List.map_map]
          apply List.map_congr_left
          intro pb _
          simp only [Function.comp_apply, entryCovered]
          refine congrArg (Prod.mk pb.1) ?_
          by_cases h1 : pb.1 ∈ verCovered t (v :: vs)
          · rw [decide_eq_true h1,
              decide_eq_true (List.mem_append.mpr (Or.inl h1) :
                pb.1 ∈ verCovered t (v :: vs) ++ rest.flatMap entryCovered)]
            simp
          · rw [decide_eq_false h1]
            by_cases h2 : pb.1 ∈ rest.flatMap entryCovered
            · rw [decide_eq_true h2,
                decide_eq_true (List.mem_append.mpr (Or.inr h2) :
                  pb.1 ∈ verCovered t (v :: vs) ++ rest.flatMap entryCovered)]
              simp
            · rw [decide_eq_false h2,
                decide_eq_false (fun hc => ((List.mem_append.mp hc).elim h1 h2) :
                  pb.1 ∉ verCovered t (v :: vs) ++ rest.flatMap entryCovered)]
              simp
    all_goals simp [typeLoop, ih, entryErrors, entryCovered]

theorem initFlags_missing (routing : List RoutingKey) :
    (initFlags routing).filterMap
        (fun pb => if pb.2 then none else some (SchemaErr.schemaNotFound pb.1.1 pb.1.2))
      = routing.map (fun p => SchemaErr.schemaNotFound p.1 p.2) := by
  rw [initFlags, List.filterMap_map]
  rw [show ((fun pb : RoutingKey × Bool =>
          if pb.2 then none else some (SchemaErr.schemaNotFound pb.1.1 pb.1.2))
        ∘ (fun k : RoutingKey => (k, false)))
      = fun k : RoutingKey => some (SchemaErr.schemaNotFound k.1 k.2) from by
    funext k; simp]
  exact filterMapSome _ _

theorem missingList_nil_cov (routing : List RoutingKey) (doc : SchemaDoc)
    (h : docCovered doc = []) :
    missingList routing doc = routing.map (fun p => SchemaErr.schemaNotFound p.1 p.2) := by
  rw [missingList]
  rw [show (fun p : RoutingKey =>
        if p ∈ docCovered doc then none else some (SchemaErr.schemaNotFound p.1 p.2))
      = fun p : RoutingKey => some (SchemaErr.schemaNotFound p.1 p.2) from by
    funext p; rw [h]; simp]
  exact filterMapSome _ _

theorem checkSchemaCustom_decomp (routing : List RoutingKey) (doc : SchemaDoc) :
    checkSchemaCustom routing doc = docErrors doc ++ missingList routing doc := by
  obtain ⟨i, sch⟩ := doc
  cases sch with
  | none =>
    have h1 : checkSchemaCustom routing ⟨i, none⟩
        = [SchemaErr.missingSchemas] ++ (initFlags routing).filterMap
            (fun pb => if pb.2 then none else some (SchemaErr.schemaNotFound pb.1.1 pb.1.2)) :=
      rfl
    rw [h1, initFlags_missing, missingList_nil_cov routing ⟨i, none⟩ rfl]
    rfl
  | some l =>
    cases l with
    | nil =>
      have h1 : checkSchemaCustom routing ⟨i, some []⟩
          = [SchemaErr.missingSchemas] ++ (initFlags routing).filterMap
              (fun pb => if pb.2 then none else some (SchemaErr.schemaNotFound pb.1.1 pb.1.2)) :=
        rfl
      rw [h1, initFlags_missing, missingList_nil_cov routing ⟨i, some []⟩ rfl]
      rfl
    | cons e rest =>
      simp only [checkSchemaCustom, typeLoop_eq, initFlags, docErrors, docCovered, missingList,
        List.map_map]
      refine congrArg (List.append _) ?_
      rw [List.filterMap_map]
      apply List.filterMap_congr
      intro p _
      simp only [Function.comp_apply]
      by_cases hp : p ∈ (e :: rest).flatMap entryCovered
      · rw [if_pos hp, decide_eq_true hp]
        simp
      · rw [if_neg hp, decide_eq_false hp]
        simp

theorem verErrors_length (t : String) (vs : List (String × JVal)) :
    (verErrors t vs).length = vs.countP (fun q => (parseStrictVersion q.1).isNone) := by
  induction vs with
  | nil => rfl
  | cons q rest ih =>
    cases hp : parseStrictVersion q.1 with
    | none =>
      simp only [verErrors, List.filterMap_cons, hp] at ih ⊢
      simp [List.countP_cons, hp, ih, Nat.add_comm]
    | some tup =>
      simp only [verErrors, List.filterMap_cons, hp] at ih ⊢
      simp [List.countP_cons, hp, ih]

theorem entryErrors_length (e : String × JVal) :
    (entryErrors e).length =
      (if badVal e.2 then 1 else 0)
        + (entryEntries e).countP (fun p => (parseStrictVersion p.2).isNone) := by
  obtain ⟨t, v⟩ := e
  cases v
  case obj fields =>
    cases fields with
    | nil => simp [entryErrors, entryEntries, badVal]
    | cons q qs =>
      have hc : (entryEntries (t, JVal.obj (q :: qs))).countP
            (fun p => (parseStrictVersion p.2).isNone)
          = (q :: qs).countP (fun q2 => (parseStrictVersion q2.1).isNone) := by
        show ((q :: qs).map (fun q2 => (t, q2.1))).countP
            (fun p => (parseStrictVersion p.2).isNone) = _
        rw [List.countP_map]
        rfl
      rw [hc]
      simp [entryErrors, badVal, verErrors_length]
  all_goals simp [entryErrors, entryEntries, badVal]

theorem docErrorsList_length (l : List (String × JVal)) :
    (l.flatMap entryErrors).length =
      l.countP (fun q => badVal q.2)
        + (l.flatMap entryEntries).countP (fun p => (parseStrictVersion p.2).isNone) := by
  induction l with
  | nil => rfl
  | cons e rest ih =>
    rw [List.flatMap_cons, List.length_append, entryErrors_length, ih, List.countP_cons,
      List.flatMap_cons, List.countP_append]
    cases hb : badVal e.2 <;> simp [hb] <;> omega

theorem docErrors_length (doc : SchemaDoc) :
    (docErrors doc).length = shapeErrCount doc + malformedCount doc := by
  obtain ⟨i, sch⟩ := doc
  cases sch with
  | none => simp [docErrors, shapeErrCount, malformedCount, docEntries]
  | some l =>
    cases l with
    | nil => simp [docErrors, shapeErrCount, malformedCount, docEntries]
    | cons e rest =>
      rw [show docErrors ⟨i, some (e :: rest)⟩ = (e :: rest).flatMap entryErrors from rfl,
        docErrorsList_length]
      rfl

theorem missingList_length (routing : List RoutingKey) (doc : SchemaDoc) :
    (missingList routing doc).length
      = routing.countP (fun p => !decide (p ∈ docCovered doc)) := by
  induction routing with
  | nil => rfl
  | cons p rest ih =>
    simp only [missingList, List.filterMap_cons] at ih ⊢
    by_cases hp : p ∈ docCovered doc
    · simp [hp, List.countP_cons, ih]
    · simp [hp, List.countP_cons, ih, Nat.add_comm]

theorem docErrors_eq_flatMap (i : String) (l : List (String × JVal)) (h : l ≠ []) :
    docErrors ⟨i, some l⟩ = l.flatMap entryErrors := by
  obtain ⟨e, rest, rfl⟩ := List.exists_cons_of_ne_nil h
  rfl

theorem docCovered_eq_flatMap (i : String) (l : List (String × JVal)) (h : l ≠ []) :
    docCovered ⟨i, some l⟩ = l.flatMap entryCovered := by
  obtain ⟨e, rest, rfl⟩ := List.exists_cons_of_ne_nil h
  rfl

theorem verErrors_all_parse (t : String) (vs : List (String × JVal))
    (h : ∀ q ∈ vs, (parseStrictVersion q.1).isSome = true) : verErrors t vs = [] := by
  rw [verErrors]
  apply List.filterMap_eq_nil_iff.mpr
  intro q hq
  obtain ⟨tup, htup⟩ := Option.isSome_iff_exists.mp (h q hq)
  rw [htup]

theorem verErrors_append (t : String) (a b : List (String × JVal)) :
    verErrors t (a ++ b) = verErrors t a ++ verErrors t b :=
  List.filterMap_append a b _

theorem verCovered_append (t : String) (a b : List (String × JVal)) :
    verCovered t (a ++ b) = verCovered t a ++ verCovered t b :=
  List.filterMap_append a b _

theorem entryErrors_badVal (t : String) (v : JVal) (h : badVal v = true) :
    entryErrors (t, v) = [SchemaErr.invalidDefinition t] := by
  cases v
  case obj fields =>
    cases fields with
    | nil => rfl
    | cons q qs => simp [badVal] at h
  all_goals rfl

theorem missingList_congr (routing : List RoutingKey) (d1 d2 : SchemaDoc)
    (h : ∀ p ∈ routing, p ∈ docCovered d1 ↔ p ∈ docCovered d2) :
    missingList routing d1 = missingList routing d2 := by
  rw [missingList, missingList]
  apply List.filterMap_congr
  intro p hp
  by_cases hm : p ∈ docCovered d2
  · rw [if_pos hm, if_pos ((h p hp).mpr hm)]
  · rw [if_neg hm, if_neg (fun hc => hm ((h p hp).mp hc))]

theorem check_schema_congr (routing : List RoutingKey) (d1 d2 : SchemaDoc)
    (h : checkSchemaCustom routing d1 = checkSchemaCustom routing d2) :
    MessageValidator.check_schema routing d1 = MessageValidator.check_schema routing d2 := by
  unfold MessageValidator.check_schema
  rw [h]

/-! Claim theorems. -/

/-- C1 (counterexample): the claim states that `check("human-uuid", x)` is
true for a string `x` only when `x` matches the lowercase hyphenated
`8-4-4-4-12` pattern exactly (any other length returns false).  The code
returns true for a valid uuid followed by a single trailing newline
(37 characters), because the `$` anchor of `re.match` also matches just
before a final newline; the exact-shape predicate rejects that string. -/
theorem check_human_uuid_trailing_newline_counterexample :
    MessageValidator.check_human_uuid (JVal.str "123e4567-e89b-12d3-a456-426614174000\n") = true
    ∧ ¬ IsUuidChars (String.data "123e4567-e89b-12d3-a456-426614174000\n") := by
  constructor
  · decide
  · intro h
    have h2 := (isUuidChars_iff_uuidRem _).mp h
    exact absurd h2 (by decide)

/-- C1 (amended): `check_human_uuid v` is true iff `v` is not a string,
or `v` is a string whose characters form the canonical lowercase
hyphenated `8-4-4-4-12` hexadecimal UUID shape, or that shape followed by
exactly one trailing newline (an artifact of the `$` anchor of
`re.match`). -/
theorem check_human_uuid_characterization (v : JVal) :
    MessageValidator.check_human_uuid v = true ↔
      ((∀ s, v ≠ JVal.str s)
        ∨ ∃ s, v = JVal.str s
            ∧ (IsUuidChars s.data ∨ ∃ cs, s.data = cs ++ ['\n'] ∧ IsUuidChars cs)) := by
  cases v
  case str s =>
    constructor
    · intro h
      refine Or.inr ⟨s, rfl, ?_⟩
      have h' : humanUuidMatch s = true := h
      rw [humanUuidMatch, Bool.or_eq_true] at h'
      rcases h' with h1 | h1
      · exact Or.inl ((isUuidChars_iff_uuidRem _).mpr (of_decide_eq_true h1))
      · exact Or.inr ((isUuidCharsNl_iff_uuidRem _).mpr (of_decide_eq_true h1))
    · rintro (h | ⟨s2, hs, h⟩)
      · exact absurd rfl (h s)
      · injection hs with hss
        subst hss
        show humanUuidMatch s = true
        rw [humanUuidMatch, Bool.or_eq_true]
        rcases h with h | h
        · exact Or.inl (decide_eq_true ((isUuidChars_iff_uuidRem _).mp h))
        · exact Or.inr (decide_eq_true ((isUuidCharsNl_iff_uuidRem _).mp h))
  all_goals
    constructor
    · intro _
      exact Or.inl (fun s h => JVal.noConfusion h)
    · intro _
      rfl

/-- C1 (witness): the characterization applied to a concrete canonical
uuid string. -/
theorem check_human_uuid_characterization_witness :
    (∀ s, JVal.str "123e4567-e89b-12d3-a456-426614174000" ≠ JVal.str s)
      ∨ ∃ s, JVal.str "123e4567-e89b-12d3-a456-426614174000" = JVal.str s
          ∧ (IsUuidChars s.data ∨ ∃ cs, s.data = cs ++ ['\n'] ∧ IsUuidChars cs) :=
  (check_human_uuid_characterization
    (JVal.str "123e4567-e89b-12d3-a456-426614174000")).mp (by decide)

/-- C3: a message whose schema reference does not start with the
document root id is rejected with the root-mismatch outcome (a bare
`ValidationError`, no per-field records), and the outcome does not
depend on the resolver or on the structural-checking engine: no
resolution and no structural checking is performed. -/
theorem validate_root_mismatch_short_circuits {E : Type} (doc : SchemaDoc)
    (resolve : String → Option JVal) (iter_errors : JVal → JVal → List E)
    (message : Message)
    (h : startswith message.schema (MessageValidator.schema_root doc) = false) :
    MessageValidator.validate doc resolve iter_errors message = ValidateOutcome.rootMismatch
    ∧ (MessageValidator.validate doc resolve iter_errors message).records = []
    ∧ ∀ (resolve2 : String → Option JVal) (iter_errors2 : JVal → JVal → List E),
        MessageValidator.validate doc resolve2 iter_errors2 message
          = MessageValidator.validate doc resolve iter_errors message := by
  refine ⟨?_, ?_, ?_⟩ <;>
    simp [MessageValidator.validate, h, ValidateOutcome.records]

/-- C3 (witness): concrete root-mismatching message. -/
theorem validate_root_mismatch_short_circuits_witness :
    startswith "https://other/x/1.0" (MessageValidator.schema_root ⟨"https://root", none⟩) = false
    ∧ (MessageValidator.validate ⟨"https://root", none⟩ (fun _ => none)
          (fun _ _ => ([] : List Nat)) ⟨"https://other/x/1.0", JVal.null⟩
            = ValidateOutcome.rootMismatch
        ∧ (MessageValidator.validate ⟨"https://root", none⟩ (fun _ => none)
            (fun _ _ => ([] : List Nat)) ⟨"https://other/x/1.0", JVal.null⟩).records = []
        ∧ ∀ (resolve2 : String → Option JVal) (iter_errors2 : JVal → JVal → List Nat),
            MessageValidator.validate ⟨"https://root", none⟩ resolve2 iter_errors2
                ⟨"https://other/x/1.0", JVal.null⟩
              = MessageValidator.validate ⟨"https://root", none⟩ (fun _ => none)
                  (fun _ _ => ([] : List Nat)) ⟨"https://other/x/1.0", JVal.null⟩) :=
  ⟨rfl, validate_root_mismatch_short_circuits ⟨"https://root", none⟩ (fun _ => none)
      (fun _ _ => ([] : List Nat)) ⟨"https://other/x/1.0", JVal.null⟩ rfl⟩

/-- C5: a message whose schema reference starts with the document root
but does not resolve (the resolver raises `RefResolutionError`, modelled
by `none`) is rejected with the validator's own unresolved-reference
outcome carrying no per-field records; the resolver's exception type
does not escape. -/
theorem validate_unresolved_ref_normalized {E : Type} (doc : SchemaDoc)
    (resolve : String → Option JVal) (iter_errors : JVal → JVal → List E)
    (message : Message)
    (h1 : startswith message.schema (MessageValidator.schema_root doc) = true)
    (h2 : resolve message.schema = none) :
    MessageValidator.validate doc resolve iter_errors message = ValidateOutcome.unresolvedRef
    ∧ (MessageValidator.validate doc resolve iter_errors message).records = [] := by
  constructor <;> simp [MessageValidator.validate, h1, h2, ValidateOutcome.records]

/-- C5 (witness): concrete dangling reference. -/
theorem validate_unresolved_ref_normalized_witness :
    startswith "https://root/x/1.0" (MessageValidator.schema_root ⟨"https://root", none⟩) = true
    ∧ ((fun _ : String => (none : Option JVal)) "https://root/x/1.0" = none)
    ∧ (MessageValidator.validate ⟨"https://root", none⟩ (fun _ => none)
          (fun _ _ => ([] : List Nat)) ⟨"https://root/x/1.0", JVal.null⟩
            = ValidateOutcome.unresolvedRef
        ∧ (MessageValidator.validate ⟨"https://root", none⟩ (fun _ => none)
            (fun _ _ => ([] : List Nat)) ⟨"https://root/x/1.0", JVal.null⟩).records = []) :=
  ⟨rfl, rfl, validate_unresolved_ref_normalized ⟨"https://root", none⟩ (fun _ => none)
      (fun _ _ => ([] : List Nat)) ⟨"https://root/x/1.0", JVal.null⟩ rfl rfl⟩

/-- C4: once a sub-schema is resolved, `MessageValidator.validate`
raises iff the materialised violation sequence is nonempty and the
raised error carries exactly that complete list; `FormatValidator.validate`
behaves the same way against the meta-schema. -/
theorem validate_collects_all_violations {E : Type} (doc : SchemaDoc)
    (resolve : String → Option JVal) (iter_errors : JVal → JVal → List E)
    (message : Message) (schema : JVal)
    (iter_errors2 : JVal → List E) (data : JVal)
    (h1 : startswith message.schema (MessageValidator.schema_root doc) = true)
    (h2 : resolve message.schema = some schema) :
    (MessageValidator.validate doc resolve iter_errors message = ValidateOutcome.ok
        ↔ iter_errors message.data schema = [])
    ∧ (iter_errors message.data schema ≠ [] →
        MessageValidator.validate doc resolve iter_errors message
          = ValidateOutcome.invalid (iter_errors message.data schema))
    ∧ (FormatValidator.validate iter_errors2 data = ValidateOutcome.ok
        ↔ iter_errors2 data = [])
    ∧ (iter_errors2 data ≠ [] →
        FormatValidator.validate iter_errors2 data
          = ValidateOutcome.invalid (iter_errors2 data)) := by
  refine ⟨?_, ?_, ?_, ?_⟩
  · by_cases he : iter_errors message.data schema = [] <;>
      simp [MessageValidator.validate, h1, h2, he, List.isEmpty_iff]
  · intro he
    simp [MessageValidator.validate, h1, h2, he, List.isEmpty_iff]
  · by_cases he : iter_errors2 data = [] <;>
      simp [FormatValidator.validate, he, List.isEmpty_iff]
  · intro he
    simp [FormatValidator.validate, he, List.isEmpty_iff]

/-- C4 (witness): a payload with three violations yields the full
three-element list; an empty violation sequence returns cleanly. -/
theorem validate_collects_all_violations_witness :
    startswith "https://root/x/1.0" (MessageValidator.schema_root ⟨"https://root", none⟩) = true
    ∧ ((fun _ : String => some JVal.null) "https://root/x/1.0" = some JVal.null)
    ∧ ((MessageValidator.validate ⟨"https://root", none⟩ (fun _ => some JVal.null)
            (fun _ _ => [1, 2, 3]) ⟨"https://root/x/1.0", JVal.null⟩ = ValidateOutcome.ok
          ↔ (fun _ _ => [1, 2, 3]) JVal.null JVal.null = [])
        ∧ ((fun _ _ => [1, 2, 3]) JVal.null JVal.null ≠ [] →
            MessageValidator.validate ⟨"https://root", none⟩ (fun _ => some JVal.null)
                (fun _ _ => [1, 2, 3]) ⟨"https://root/x/1.0", JVal.null⟩
              = ValidateOutcome.invalid ((fun _ _ => [1, 2, 3]) JVal.null JVal.null))
        ∧ (FormatValidator.validate (fun _ => ([] : List Nat)) JVal.null = ValidateOutcome.ok
          ↔ (fun _ => ([] : List Nat)) JVal.null = [])
        ∧ ((fun _ => ([] : List Nat)) JVal.null ≠ [] →
            FormatValidator.validate (fun _ => ([] : List Nat)) JVal.null
              = ValidateOutcome.invalid ((fun _ => ([] : List Nat)) JVal.null))) :=
  ⟨rfl, rfl, validate_collects_all_violations ⟨"https://root", none⟩ (fun _ => some JVal.null)
      (fun _ _ => [1, 2, 3]) ⟨"https://root/x/1.0", JVal.null⟩ JVal.null
      (fun _ => ([] : List Nat)) JVal.null rfl rfl⟩

/-- C6: an unregistered format name is never enforced: the check passes
for every value. -/
theorem format_check_unknown_permissive (checkers : CheckerTable) (format : String) (v : JVal)
    (h : checkers.lookup format = none) :
    FormatChecker.conforms checkers format v = true := by
  simp [FormatChecker.conforms, h]

/-- C6 (witness): the format name date-time is not registered in the
module's table, so any value passes. -/
theorem format_check_unknown_permissive_witness :
    hedwigCheckers.lookup "date-time" = none
    ∧ FormatChecker.conforms hedwigCheckers "date-time" (JVal.num 3) = true :=
  ⟨rfl, format_check_unknown_permissive hedwigCheckers "date-time" (JVal.num 3) rfl⟩

/-- C8: message validation is deterministic: two evaluations of
`validate` on the same document, resolver, structural engine and message
produce the same outcome.  The embedding is a pure function of exactly
these four inputs, so it reads no other state and mutates neither the
document nor the message by construction. -/
theorem validate_deterministic {E : Type} (doc : SchemaDoc)
    (resolve : String → Option JVal) (iter_errors : JVal → JVal → List E)
    (message : Message) (o1 o2 : ValidateOutcome E)
    (h1 : MessageValidator.validate doc resolve iter_errors message = o1)
    (h2 : MessageValidator.validate doc resolve iter_errors message = o2) :
    o1 = o2 :=
  h1 ▸ h2

/-- C8 (witness): two concrete runs agree. -/
theorem validate_deterministic_witness :
    MessageValidator.validate ⟨"https://root", none⟩ (fun _ => none)
        (fun _ _ => ([] : List Nat)) ⟨"https://root/x/1.0", JVal.null⟩
      = ValidateOutcome.unresolvedRef
    ∧ (ValidateOutcome.unresolvedRef : ValidateOutcome Nat) = ValidateOutcome.unresolvedRef :=
  ⟨rfl, validate_deterministic ⟨"https://root", none⟩ (fun _ => none)
      (fun _ _ => ([] : List Nat)) ⟨"https://root/x/1.0", JVal.null⟩
      ValidateOutcome.unresolvedRef ValidateOutcome.unresolvedRef rfl rfl⟩

/-- C2: for any routing key set and any document (whose external
draft-4 meta-schema check is assumed to pass, as in the model's domain),
the custom check collects, in one pass, exactly one error per
structural-shape defect, one per malformed version string, and one per
required pair not covered by any parsed schema entry; when any error
was collected, `check_schema` raises a single `SchemaError` carrying the
whole list. -/
theorem check_schema_error_count (routing : List RoutingKey) (doc : SchemaDoc)
    (hnd : routing.Nodup) :
    (checkSchemaCustom routing doc).length
        = shapeErrCount doc + malformedCount doc
            + routing.countP (fun p => !decide (p ∈ docCovered doc))
    ∧ (checkSchemaCustom routing doc ≠ [] →
        MessageValidator.check_schema routing doc
          = Except.error (checkSchemaCustom routing doc)) := by
  constructor
  · rw [checkSchemaCustom_decomp, List.length_append, docErrors_length, missingList_length,
      Nat.add_assoc]
  · intro h
    rw [show MessageValidator.check_schema routing doc
        = (if (checkSchemaCustom routing doc).isEmpty then Except.ok ()
            else Except.error (checkSchemaCustom routing doc)) from rfl]
    rw [if_neg (by simpa [List.isEmpty_iff] using h)]

/-- C2 (witness): a document with one malformed version and one
uncovered required pair yields exactly two errors (no shape errors). -/
theorem check_schema_error_count_witness :
    ([(("a" : String), (1 : Nat)), ("b", 2)]).Nodup
    ∧ ((checkSchemaCustom [("a", 1), ("b", 2)]
            ⟨"id", some [("a", JVal.obj [("1.0", JVal.null), ("bogus", JVal.null)])]⟩).length
          = shapeErrCount ⟨"id", some [("a", JVal.obj [("1.0", JVal.null), ("bogus", JVal.null)])]⟩
              + malformedCount
                  ⟨"id", some [("a", JVal.obj [("1.0", JVal.null), ("bogus", JVal.null)])]⟩
              + ([(("a" : String), (1 : Nat)), ("b", 2)]).countP
                  (fun p => !decide (p ∈ docCovered
                    ⟨"id", some [("a", JVal.obj [("1.0", JVal.null), ("bogus", JVal.null)])]⟩))
        ∧ (checkSchemaCustom [("a", 1), ("b", 2)]
              ⟨"id", some [("a", JVal.obj [("1.0", JVal.null), ("bogus", JVal.null)])]⟩ ≠ [] →
            MessageValidator.check_schema [("a", 1), ("b", 2)]
                ⟨"id", some [("a", JVal.obj [("1.0", JVal.null), ("bogus", JVal.null)])]⟩
              = Except.error (checkSchemaCustom [("a", 1), ("b", 2)]
                  ⟨"id", some [("a", JVal.obj [("1.0", JVal.null), ("bogus", JVal.null)])]⟩))) :=
  ⟨by decide, check_schema_error_count [("a", 1), ("b", 2)]
      ⟨"id", some [("a", JVal.obj [("1.0", JVal.null), ("bogus", JVal.null)])]⟩ (by decide)⟩

/-- C7: the load-time shape checks: a falsy `schemas` value is recorded
as an error; every message type whose versions value is not a nonempty
dict is recorded as an error; the document-pass errors precede the
coverage errors in the collected list; and a document with no shape
error has a nonempty `schemas` dict all of whose types map to nonempty
version dicts. -/
theorem check_schema_shape_checks (routing : List RoutingKey) (doc : SchemaDoc) :
    (schemasFalsy doc = true → SchemaErr.missingSchemas ∈ checkSchemaCustom routing doc)
    ∧ (∀ l, doc.schemas = some l → ∀ e ∈ l, badVal e.2 = true →
        SchemaErr.invalidDefinition e.1 ∈ checkSchemaCustom routing doc)
    ∧ checkSchemaCustom routing doc = docErrors doc ++ missingList routing doc
    ∧ (shapeErrCount doc = 0 →
        ∃ l, doc.schemas = some l ∧ l ≠ [] ∧ ∀ e ∈ l, badVal e.2 = false) := by
  refine ⟨?_, ?_, checkSchemaCustom_decomp _ _, ?_⟩
  · intro hf
    rw [checkSchemaCustom_decomp]
    rcases hsc : doc.schemas with _ | l
    · simp [docErrors, hsc]
    · cases l with
      | nil => simp [docErrors, hsc]
      | cons e rest => simp [schemasFalsy, hsc] at hf
  · intro l hl e he hbad
    rw [checkSchemaCustom_decomp]
    refine List.mem_append_left _ ?_
    cases l with
    | nil => exact absurd he (List.not_mem_nil e)
    | cons e0 rest =>
      rw [show docErrors doc = (e0 :: rest).flatMap entryErrors from by simp [docErrors, hl]]
      refine List.mem_flatMap.mpr ⟨e, he, ?_⟩
      rw [show entryErrors e = entryErrors (e.1, e.2) from by rw [Prod.mk.eta],
        entryErrors_badVal e.1 e.2 hbad]
      simp
  · intro hs
    rcases hsc : doc.schemas with _ | l
    · simp [shapeErrCount, hsc] at hs
    · cases l with
      | nil => simp [shapeErrCount, hsc] at hs
      | cons e rest =>
        refine ⟨e :: rest, rfl, by simp, ?_⟩
        have hz : (e :: rest).countP (fun q => badVal q.2) = 0 := by
          simpa [shapeErrCount, hsc] using hs
        have h2 := List.countP_eq_zero.mp hz
        intro e2 he2
        cases hb : badVal e2.2
        · rfl
        · exact absurd hb (h2 e2 he2)

/-- C7 (witness): a document without a `schemas` key records the
missing-key error. -/
theorem check_schema_shape_checks_witness :
    schemasFalsy ⟨"id", none⟩ = true
    ∧ SchemaErr.missingSchemas ∈ checkSchemaCustom [] ⟨"id", none⟩ :=
  ⟨rfl, (check_schema_shape_checks [] ⟨"id", none⟩).1 rfl⟩

/-- C9: a document whose `schemas` key is missing, `None` or empty fails
`check_schema` with the structural error followed by one
schema-not-found error for every pair of the required-coverage set. -/
theorem check_schema_empty_document_reports_all (routing : List RoutingKey) (doc : SchemaDoc)
    (hnd : routing.Nodup) (h : doc.schemas = none ∨ doc.schemas = some []) :
    MessageValidator.check_schema routing doc
      = Except.error (SchemaErr.missingSchemas
          :: routing.map (fun p => SchemaErr.schemaNotFound p.1 p.2)) := by
  have hcov : docCovered doc = [] := by
    rcases h with h | h <;> simp [docCovered, h]
  have hderr : docErrors doc = [SchemaErr.missingSchemas] := by
    rcases h with h | h <;> simp [docErrors, h]
  have hlist : checkSchemaCustom routing doc
      = SchemaErr.missingSchemas :: routing.map (fun p => SchemaErr.schemaNotFound p.1 p.2) := by
    rw [checkSchemaCustom_decomp, hderr, missingList_nil_cov _ _ hcov]
    rfl
  rw [show MessageValidator.check_schema routing doc
      = (if (checkSchemaCustom routing doc).isEmpty then Except.ok ()
          else Except.error (checkSchemaCustom routing doc)) from rfl, hlist]
  rfl

/-- C9 (witness): an empty document against one required pair. -/
theorem check_schema_empty_document_reports_all_witness :
    ([(("a" : String), (1 : Nat))]).Nodup
    ∧ MessageValidator.check_schema [("a", 1)] ⟨"id", none⟩
        = Except.error (SchemaErr.missingSchemas
            :: ([(("a" : String), (1 : Nat))]).map (fun p => SchemaErr.schemaNotFound p.1 p.2)) :=
  ⟨by decide, check_schema_empty_document_reports_all [("a", 1)] ⟨"id", none⟩ (by decide)
      (Or.inl rfl)⟩

/-- C10: schema entries whose parsed `(type, major)` key is outside the
required-coverage set contribute nothing: appending an extra well-formed
all-parsing message type, or extra parsing versions inside an existing
type, leaves the collected error list (and the raise/ok outcome of
`check_schema`) unchanged. -/
theorem check_schema_extra_entries_irrelevant (routing : List RoutingKey) (i : String)
    (hnd : routing.Nodup) :
    (∀ (l : List (String × JVal)) (t0 : String) (vs0 : List (String × JVal)),
      l ≠ [] →
      (∀ e ∈ l, badVal e.2 = false) →
      (∀ q ∈ docEntries ⟨i, some l⟩, (parseStrictVersion q.2).isSome = true) →
      vs0 ≠ [] →
      (∀ q ∈ vs0, (parseStrictVersion q.1).isSome = true) →
      (∀ k ∈ verCovered t0 vs0, k ∉ routing) →
      (checkSchemaCustom routing ⟨i, some (l ++ [(t0, JVal.obj vs0)])⟩
          = checkSchemaCustom routing ⟨i, some l⟩
        ∧ MessageValidator.check_schema routing ⟨i, some (l ++ [(t0, JVal.obj vs0)])⟩
          = MessageValidator.check_schema routing ⟨i, some l⟩))
    ∧ (∀ (l1 l2 : List (String × JVal)) (t : String) (vs extra : List (String × JVal)),
      vs ≠ [] →
      (∀ q ∈ extra, (parseStrictVersion q.1).isSome = true) →
      (∀ k ∈ verCovered t extra, k ∉ routing) →
      (checkSchemaCustom routing ⟨i, some (l1 ++ (t, JVal.obj (vs ++ extra)) :: l2)⟩
          = checkSchemaCustom routing ⟨i, some (l1 ++ (t, JVal.obj vs) :: l2)⟩
        ∧ MessageValidator.check_schema routing
              ⟨i, some (l1 ++ (t, JVal.obj (vs ++ extra)) :: l2)⟩
          = MessageValidator.check_schema routing
              ⟨i, some (l1 ++ (t, JVal.obj vs) :: l2)⟩)) := by
  constructor
  · intro l t0 vs0 hl hwf hparse hvs0 hp0 hnr
    obtain ⟨v0, vs0', rfl⟩ := List.exists_cons_of_ne_nil hvs0
    have hex : entryErrors (t0, JVal.obj (v0 :: vs0')) = [] := by
      show verErrors t0 (v0 :: vs0') = []
      exact verErrors_all_parse _ _ hp0
    have hde : docErrors ⟨i, some (l ++ [(t0, JVal.obj (v0 :: vs0'))])⟩
        = docErrors ⟨i, some l⟩ := by
      rw [docErrors_eq_flatMap _ _ (by simp), docErrors_eq_flatMap _ _ hl,
        List.flatMap_append]
      simp [hex]
    have hcov : ∀ p ∈ routing,
        (p ∈ docCovered ⟨i, some (l ++ [(t0, JVal.obj (v0 :: vs0'))])⟩
          ↔ p ∈ docCovered ⟨i, some l⟩) := by
      intro p hp
      rw [docCovered_eq_flatMap _ _ (by simp), docCovered_eq_flatMap _ _ hl,
        List.flatMap_append, List.mem_append]
      constructor
      · rintro (h | h)
        · exact h
        · exfalso
          have hpv : p ∈ verCovered t0 (v0 :: vs0') := by
            simpa [entryCovered] using h
          exact hnr p hpv hp
      · exact Or.inl
    have hmain : checkSchemaCustom routing ⟨i, some (l ++ [(t0, JVal.obj (v0 :: vs0'))])⟩
        = checkSchemaCustom routing ⟨i, some l⟩ := by
      rw [checkSchemaCustom_decomp, checkSchemaCustom_decomp, hde,
        missingList_congr routing _ _ hcov]
    exact ⟨hmain, check_schema_congr _ _ _ hmain⟩
  · intro l1 l2 t vs extra hvs hpx hnr
    obtain ⟨v0, vs', rfl⟩ := List.exists_cons_of_ne_nil hvs
    have hvx : verErrors t extra = [] := verErrors_all_parse _ _ hpx
    have hee : entryErrors (t, JVal.obj ((v0 :: vs') ++ extra))
        = entryErrors (t, JVal.obj (v0 :: vs')) := by
      show verErrors t (v0 :: (vs' ++ extra)) = verErrors t (v0 :: vs')
      rw [← List.cons_append, verErrors_append, hvx, List.append_nil]
    have hec : entryCovered (t, JVal.obj ((v0 :: vs') ++ extra))
        = verCovered t (v0 :: vs') ++ verCovered t extra := by
      show verCovered t (v0 :: (vs' ++ extra)) = _
      rw [← List.cons_append, verCovered_append]
    have hde : docErrors ⟨i, some (l1 ++ (t, JVal.obj ((v0 :: vs') ++ extra)) :: l2)⟩
        = docErrors ⟨i, some (l1 ++ (t, JVal.obj (v0 :: vs')) :: l2)⟩ := by
      rw [docErrors_eq_flatMap _ _ (by simp), docErrors_eq_flatMap _ _ (by simp),
        List.flatMap_append, List.flatMap_append, List.flatMap_cons, List.flatMap_cons, hee]
    have hcov : ∀ p ∈ routing,
        (p ∈ docCovered ⟨i, some (l1 ++ (t, JVal.obj ((v0 :: vs') ++ extra)) :: l2)⟩
          ↔ p ∈ docCovered ⟨i, some (l1 ++ (t, JVal.obj (v0 :: vs')) :: l2)⟩) := by
      intro p hp
      rw [docCovered_eq_flatMap _ _ (by simp), docCovered_eq_flatMap _ _ (by simp),
        List.flatMap_append, List.flatMap_append, List.flatMap_cons, List.flatMap_cons, hec,
        show entryCovered (t, JVal.obj (v0 :: vs')) = verCovered t (v0 :: vs') from rfl]
      simp only [List.mem_append]
      constructor
      · rintro (h | (h | h) | h)
        · exact Or.inl h
        · exact Or.inr (Or.inl h)
        · exact absurd hp (absurd h (fun h2 => hnr p h2 hp) : p ∈ routing → False)
        · exact Or.inr (Or.inr h)
      · rintro (h | h | h)
        · exact Or.inl h
        · exact Or.inr (Or.inl (Or.inl h))
        · exact Or.inr (Or.inr h)
    have hmain : checkSchemaCustom routing ⟨i, some (l1 ++ (t, JVal.obj ((v0 :: vs') ++ extra)) :: l2)⟩
        = checkSchemaCustom routing ⟨i, some (l1 ++ (t, JVal.obj (v0 :: vs')) :: l2)⟩ := by
      rw [checkSchemaCustom_decomp, checkSchemaCustom_decomp, hde,
        missingList_congr routing _ _ hcov]
    exact ⟨hmain, check_schema_congr _ _ _ hmain⟩

/-- C10 (witness): adding a fresh message type outside the required set
leaves the outcome of the check unchanged. -/
theorem check_schema_extra_entries_irrelevant_witness :
    ([(("a" : String), (1 : Nat))]).Nodup
    ∧ (checkSchemaCustom [("a", 1)]
          ⟨"id", some ([("a", JVal.obj [("1.0", JVal.null)])]
            ++ [("b", JVal.obj [("2.0", JVal.null)])])⟩
        = checkSchemaCustom [("a", 1)] ⟨"id", some [("a", JVal.obj [("1.0", JVal.null)])]⟩
      ∧ MessageValidator.check_schema [("a", 1)]
          ⟨"id", some ([("a", JVal.obj [("1.0", JVal.null)])]
            ++ [("b", JVal.obj [("2.0", JVal.null)])])⟩
        = MessageValidator.check_schema [("a", 1)]
            ⟨"id", some [("a", JVal.obj [("1.0", JVal.null)])]⟩) :=
  ⟨by decide,
    (check_schema_extra_entries_irrelevant [("a", 1)] "id" (by decide)).1
      [("a", JVal.obj [("1.0", JVal.null)])] "b" [("2.0", JVal.null)]
      (List.cons_ne_nil _ _) (by decide) (by decide) (List.cons_ne_nil _ _) (by decide)
      (by decide)⟩
